import Mathlib

/-!
DeBountyManager front end: a shallow embedding of `pages/index.js`.

The page keeps nine `useState` cells and offers asynchronous handlers that talk
to a remote `DeBountyManager` contract through `ethers`.  The embedding makes

* the React state an explicit record `State`;
* every answer of the outside world (the contract's replies, and the two
  `ethers.utils` conversions the page calls) a field of `Env`;
* every handler a function from `Env` and the state of the render it closes
  over to the state its own statements leave behind and the ordered list of
  observable events;
* the render a separate step, `initUser`, which the page repeats whenever a
  setter has changed a cell (`Handler.page`).

The ledger behind the contract is not part of the sources; section `Ledger`
models it from the specification for the conservation law only.
-/

namespace DeBounty

/-! ## Data model -/

/-- Message of a rejected promise. -/
abbrev Error := String

/-- Record returned by `contract.tasks(i)`; the fields are those the page renders. -/
structure Task where
  description : String
  bounty : Nat
  assignee : String
  completed : Bool
deriving DecidableEq, Repr

/-- The object built by `new ethers.Contract(contractAddress, abi, signer)`. -/
structure ContractObj where
  address : String
deriving DecidableEq, Repr

/-- The nine `useState` cells of `DeBountyManagerApp`; `none` is `undefined`. -/
structure State where
  ethWallet : Option String
  account : Option String
  contract : Option ContractObj
  balance : Option String
  tasks : List Task
  newTaskDescription : String
  newTaskBounty : String
  taskIdToAssign : String
  taskIdToComplete : String
deriving DecidableEq, Repr

/-- Initial values passed to `useState`. -/
def State.init : State :=
  { ethWallet := none, account := none, contract := none, balance := none, tasks := [],
    newTaskDescription := "", newTaskBounty := "", taskIdToAssign := "", taskIdToComplete := "" }

/-- Contract methods the page invokes, with the arguments it passes. -/
inductive Call where
  | balance
  | getTaskCount
  | tasks (i : Nat)
  | createTask (description : String) (bountyInWei : Int)
  | assignTask (taskId : String)
  | completeTask (taskId : String)
  | deposit (value : Int)
  | withdraw (amountInWei : Int)
deriving DecidableEq, Repr

/-- Fate of a transaction: `await contract.m(..)` throws, `await tx.wait()` throws,
or both resolve. -/
inductive TxResult where
  | rejected
  | reverted
  | confirmed
deriving DecidableEq, Repr

/-- The two refresh functions of the page. -/
inductive Refresh where
  | getBalance
  | getTasks
deriving DecidableEq, Repr

/-- Observable steps of a handler, in the order the script performs them. -/
inductive Event where
  | run (f : Refresh)
  | call (c : Call)
  | confirmed (c : Call)
  | alert (msg : String)
  | consoleError (msg : String)
  | consoleLog (msg : String)
deriving DecidableEq, Repr

/-- Everything the page obtains from outside its own file: the two `ethers.utils`
conversions and the replies of the deployed contract. -/
structure Env where
  parseEther : String → Except Error Int
  formatEther : Nat → String
  balance : Except Error Nat
  getTaskCount : Except Error Nat
  tasks : Nat → Except Error Task
  send : Call → TxResult

/-- JavaScript truthiness of a string: only the empty string is falsy. -/
def truthy (str : String) : Bool := str != ""

/-- JavaScript truthiness of a cell that is undefined or holds a string. -/
def truthyCell (cell : Option String) : Bool :=
  match cell with
  | some str => truthy str
  | none => false

/-! ## Account handlers -/

/-- Embedding of `handleAccounts`; `none` stands for a null or undefined argument. -/
def handleAccounts (accounts : Option (List String)) (s : State) : State × List Event :=
  match accounts with
  | some (a :: _) => ({ s with account := some a }, [.consoleLog "Account connected: "])
  | _ => (s, [.consoleLog "No account found"])

/-- Embedding of `handleAccountsChanged`, whose argument is always an array. -/
def handleAccountsChanged (accounts : List String) (s : State) : State × List Event :=
  if accounts.length = 0 then
    (s, [.consoleLog "Please connect to MetaMask."])
  else
    match accounts with
    | a :: _ => ({ s with account := some a }, [])
    | [] => (s, [])

/-- The fixed deployment address the page uses. -/
def contractAddress : String := "0x5FbDB2315678afecb367f032d93F642f64180aa3"

/-- Embedding of `getContract`. -/
def getContract (s : State) : State :=
  { s with contract := some { address := contractAddress } }

/-! ## Refresh functions -/

/-- Embedding of `getBalance`. -/
def getBalance (env : Env) (s : State) : State × List Event :=
  match s.contract with
  | none => (s, [.run .getBalance])
  | some _ =>
    match env.balance with
    | .ok contractBalance =>
      ({ s with balance := some (env.formatEther contractBalance) },
        [.run .getBalance, .call .balance])
    | .error _ =>
      (s, [.run .getBalance, .call .balance, .consoleError "Error fetching contract balance:"])

/-- The `for (let i = 0; i < taskCount; i++)` loop of `getTasks`: the first failing
`contract.tasks(i)` aborts it with the rejection. -/
def getTasksLoop (env : Env) (taskCount : Nat) (i : Nat) (tasksArray : List Task)
    (log : List Event) : Except Error (List Task) × List Event :=
  if i < taskCount then
    match env.tasks i with
    | .ok task =>
      getTasksLoop env taskCount (i + 1) (tasksArray ++ [task]) (log ++ [.call (.tasks i)])
    | .error e => (.error e, log ++ [.call (.tasks i)])
  else
    (.ok tasksArray, log)
termination_by taskCount - i

/-- Embedding of `getTasks`. -/
def getTasks (env : Env) (s : State) : State × List Event :=
  match s.contract with
  | none => (s, [.run .getTasks])
  | some _ =>
    match env.getTaskCount with
    | .error _ =>
      (s, [.run .getTasks, .call .getTaskCount, .consoleError "Error fetching tasks:"])
    | .ok taskCount =>
      match getTasksLoop env taskCount 0 [] [.run .getTasks, .call .getTaskCount] with
      | (.ok tasksArray, log) => ({ s with tasks := tasksArray }, log)
      | (.error _, log) => (s, log ++ [.consoleError "Error fetching tasks:"])

/-! ## Rendering -/

/-- Embedding of the effects of `initUser`, which runs on every render: nothing without
a wallet or without an account, and while the `balance` cell is undefined both refreshes
are started.  The two refreshes close over the same render and run side by side; the
trace lists the events of `getBalance` before those of `getTasks`, an order the script
does not fix beyond their first steps. -/
def initUser (env : Env) (s : State) : State × List Event :=
  if s.ethWallet.isNone then
    (s, [])
  else if !truthyCell s.account then
    (s, [])
  else if s.balance.isNone then
    ({ s with balance := (getBalance env s).1.balance, tasks := (getTasks env s).1.tasks },
      (getBalance env s).2 ++ (getTasks env s).2)
  else
    (s, [])

/-- The page rendered `n` times in a row, each render finishing the refreshes it started
before the next one. -/
def renders (env : Env) : Nat → State → State × List Event
  | 0, s => (s, [])
  | n + 1, s =>
    ((renders env n (initUser env s).1).1,
      (initUser env s).2 ++ (renders env n (initUser env s).1).2)

/-! ## Transaction handlers

Each definition embeds the body of the handler: the state its own setters and its own
refresh leave behind.  The re-render those setters cause is `Handler.page` below. -/

/-- Embedding of the body of `createTask`; the re-render its setters cause is a separate
step of the page. -/
def createTask (env : Env) (s : State) : State × List Event :=
  if s.contract.isSome && truthy s.newTaskDescription && truthy s.newTaskBounty then
    match env.parseEther s.newTaskBounty with
    | .error _ => (s, [.consoleError "Error creating task:"])
    | .ok bountyInWei =>
      match env.send (.createTask s.newTaskDescription bountyInWei) with
      | .rejected =>
        (s, [.call (.createTask s.newTaskDescription bountyInWei),
             .consoleError "Error creating task:"])
      | .reverted =>
        (s, [.call (.createTask s.newTaskDescription bountyInWei),
             .consoleError "Error creating task:"])
      | .confirmed =>
        ({ (getTasks env s).1 with newTaskDescription := "", newTaskBounty := "" },
          [.call (.createTask s.newTaskDescription bountyInWei),
           .confirmed (.createTask s.newTaskDescription bountyInWei),
           .alert "Task created successfully!"] ++ (getTasks env s).2)
  else
    (s, [])

/-- Embedding of the body of `assignTask`; the re-render its setters cause is a separate
step of the page. -/
def assignTask (env : Env) (s : State) : State × List Event :=
  if s.contract.isSome && truthy s.taskIdToAssign then
    match env.send (.assignTask s.taskIdToAssign) with
    | .rejected =>
      (s, [.call (.assignTask s.taskIdToAssign), .consoleError "Error assigning task:"])
    | .reverted =>
      (s, [.call (.assignTask s.taskIdToAssign), .consoleError "Error assigning task:"])
    | .confirmed =>
      ({ (getTasks env s).1 with taskIdToAssign := "" },
        [.call (.assignTask s.taskIdToAssign), .confirmed (.assignTask s.taskIdToAssign),
         .alert "Task assigned successfully!"] ++ (getTasks env s).2)
  else
    (s, [])

/-- Embedding of the body of `completeTask`; the re-render its setters cause is a separate
step of the page. -/
def completeTask (env : Env) (s : State) : State × List Event :=
  if s.contract.isSome && truthy s.taskIdToComplete then
    match env.send (.completeTask s.taskIdToComplete) with
    | .rejected =>
      (s, [.call (.completeTask s.taskIdToComplete), .consoleError "Error completing task:"])
    | .reverted =>
      (s, [.call (.completeTask s.taskIdToComplete), .consoleError "Error completing task:"])
    | .confirmed =>
      ({ (getTasks env s).1 with taskIdToComplete := "" },
        [.call (.completeTask s.taskIdToComplete), .confirmed (.completeTask s.taskIdToComplete),
         .alert "Task completed successfully!"] ++ (getTasks env s).2)
  else
    (s, [])

/-- Embedding of the body of `deposit`; the re-render its setters cause is a separate
step of the page. -/
def deposit (env : Env) (s : State) : State × List Event :=
  if s.contract.isSome then
    match env.parseEther "1" with
    | .error _ => (s, [.consoleError "Error depositing:"])
    | .ok amountInWei =>
      match env.send (.deposit amountInWei) with
      | .rejected => (s, [.call (.deposit amountInWei), .consoleError "Error depositing:"])
      | .reverted => (s, [.call (.deposit amountInWei), .consoleError "Error depositing:"])
      | .confirmed =>
        ((getBalance env s).1,
          [.call (.deposit amountInWei), .confirmed (.deposit amountInWei),
           .alert "Deposited 1 ETH"] ++ (getBalance env s).2)
  else
    (s, [])

/-- Embedding of the body of `withdraw`; the re-render its setters cause is a separate
step of the page. -/
def withdraw (env : Env) (s : State) : State × List Event :=
  if s.contract.isSome then
    match env.parseEther "1" with
    | .error _ => (s, [.consoleError "Error withdrawing:"])
    | .ok amountInWei =>
      match env.send (.withdraw amountInWei) with
      | .rejected => (s, [.call (.withdraw amountInWei), .consoleError "Error withdrawing:"])
      | .reverted => (s, [.call (.withdraw amountInWei), .consoleError "Error withdrawing:"])
      | .confirmed =>
        ((getBalance env s).1,
          [.call (.withdraw amountInWei), .confirmed (.withdraw amountInWei),
           .alert "Withdrew 1 ETH"] ++ (getBalance env s).2)
  else
    (s, [])

/-! ## A concrete outside world -/

/-- Value of a string of decimal digits. -/
def digitsValue (cs : List Char) : Nat :=
  cs.foldl (fun acc c => 10 * acc + (c.toNat - 48)) 0

/-- Drop the trailing zeros of a digit string. -/
def trimTrailingZeros (cs : List Char) : List Char :=
  (cs.reverse.dropWhile (fun c => c == '0')).reverse

/-- Digits after the first dot, or `none` when a second dot follows. -/
def splitAtDot (cs : List Char) : List Char × Option (List Char) :=
  match cs.span (fun c => c != '.') with
  | (whole, []) => (whole, none)
  | (whole, _ :: rest) => (whole, some rest)

/-- Reference behaviour of `ethers.utils.parseEther` in ethers v5 (`parseFixed` with 18
decimals): an optional sign, digits with at most one dot and at most 18 significant
fraction digits, scaled to wei.  It instantiates `Env.parseEther` in concrete runs. -/
def ethersParseEther (value : String) : Except Error Int :=
  let cs := value.data
  let negative := cs.head? == some '-'
  let body := if negative then cs.drop 1 else cs
  if body.isEmpty || !(body.all (fun c => c.isDigit || c == '.')) then
    .error "invalid decimal value"
  else if body = ['.'] then
    .error "missing value"
  else
    match splitAtDot body with
    | (whole, fraction?) =>
      let fraction := trimTrailingZeros (fraction?.getD [])
      if fraction.any (fun c => c == '.') then
        .error "too many decimal points"
      else if fraction.length > 18 then
        .error "fractional component exceeds decimals"
      else
        let wei : Nat :=
          digitsValue whole * 10 ^ 18 + digitsValue fraction * 10 ^ (18 - fraction.length)
        .ok (if negative then -(wei : Int) else (wei : Int))

/-- Reference behaviour of `ethers.utils.formatEther` in ethers v5 (`formatFixed` with 18
decimals) on a non-negative amount: the whole part, a dot, and the 18 fraction digits
without their trailing zeros, a lone "0" when none is left.  It instantiates
`Env.formatEther` in concrete runs. -/
def ethersFormatEther (wei : Nat) : String :=
  let digits := Nat.toDigits 10 (wei % 10 ^ 18)
  let fraction := trimTrailingZeros (List.replicate (18 - digits.length) '0' ++ digits)
  String.mk (Nat.toDigits 10 (wei / 10 ^ 18) ++ ['.'] ++
    (if fraction.isEmpty then ['0'] else fraction))

/-- One task, as the contract of the running example would return it. -/
def sampleTask (i : Nat) : Task :=
  { description := "task", bounty := i + 1, assignee := "", completed := false }

/-- A world in which the contract holds two tasks and every transaction confirms. -/
def goodEnv : Env :=
  { parseEther := ethersParseEther
    formatEther := ethersFormatEther
    balance := .ok 0
    getTaskCount := .ok 2
    tasks := fun i => if i < 2 then .ok (sampleTask i) else .error "out of range"
    send := fun _ => .confirmed }

/-- A world in which the contract holds three tasks but reading the second one fails,
and every transaction is rejected on submission. -/
def badEnv : Env :=
  { parseEther := ethersParseEther
    formatEther := ethersFormatEther
    balance := .error "call failed"
    getTaskCount := .ok 3
    tasks := fun i => if i = 1 then .error "call failed" else .ok (sampleTask i)
    send := fun _ => .rejected }

/-- A connected page: wallet, account and contract present, forms filled in. -/
def readyState : State :=
  { ethWallet := some "metamask", account := some "0xA", contract := some { address := contractAddress },
    balance := some "0.0", tasks := [], newTaskDescription := "fix bug", newTaskBounty := "0",
    taskIdToAssign := "0", taskIdToComplete := "0" }

/-- A connected page whose `balance` cell is still undefined: the first `balance()` read
has not succeeded. -/
def freshState : State :=
  { readyState with balance := none }

/-! ## Specification predicates -/

/-- The list `ts` is the complete listing of a contract holding `n` tasks: it has `n`
entries and entry `i` is what `tasks(i)` returns. -/
def IsFullListing (env : Env) (n : Nat) (ts : List Task) : Prop :=
  ts.length = n ∧ ∀ i, i < n → ∃ t, env.tasks i = .ok t ∧ ts[i]? = some t

/-- The listing cannot complete: `getTaskCount` is rejected, or `tasks(j)` is rejected
for some `j` below the count. -/
def ListingFails (env : Env) : Prop :=
  (∃ e, env.getTaskCount = .error e) ∨
    ∃ n j e, env.getTaskCount = .ok n ∧ j < n ∧ env.tasks j = .error e

/-- The account cell the two account handlers are meant to leave behind: the first
entry of the list, or the previous account when the list is empty. -/
def accountSpec (accounts : List String) (previous : Option String) : Option String :=
  match accounts with
  | a :: _ => some a
  | [] => previous

/-- What `tasks(i)` returns, with a placeholder where the read is rejected. -/
def taskOr (env : Env) (i : Nat) : Task :=
  match env.tasks i with
  | .ok t => t
  | .error _ => { description := "", bounty := 0, assignee := "", completed := false }

/-! ## The five transaction handlers, uniformly -/

/-- Names of the five handlers that send a transaction. -/
inductive Handler where
  | createTask
  | assignTask
  | completeTask
  | deposit
  | withdraw
deriving DecidableEq, Repr

/-- The handler behind a name. -/
def Handler.run : Handler → Env → State → State × List Event
  | .createTask => DeBounty.createTask
  | .assignTask => DeBounty.assignTask
  | .completeTask => DeBounty.completeTask
  | .deposit => DeBounty.deposit
  | .withdraw => DeBounty.withdraw

/-- The condition of the outer `if` of each handler. -/
def Handler.guard (s : State) : Handler → Bool
  | .createTask => s.contract.isSome && truthy s.newTaskDescription && truthy s.newTaskBounty
  | .assignTask => s.contract.isSome && truthy s.taskIdToAssign
  | .completeTask => s.contract.isSome && truthy s.taskIdToComplete
  | .deposit => s.contract.isSome
  | .withdraw => s.contract.isSome

/-- The contract method and arguments each handler passes inside its `try`; `none` when
`parseEther` throws before the call is reached. -/
def Handler.request (env : Env) (s : State) : Handler → Option Call
  | .createTask =>
    match env.parseEther s.newTaskBounty with
    | .ok bountyInWei => some (.createTask s.newTaskDescription bountyInWei)
    | .error _ => none
  | .assignTask => some (.assignTask s.taskIdToAssign)
  | .completeTask => some (.completeTask s.taskIdToComplete)
  | .deposit =>
    match env.parseEther "1" with
    | .ok amountInWei => some (.deposit amountInWei)
    | .error _ => none
  | .withdraw =>
    match env.parseEther "1" with
    | .ok amountInWei => some (.withdraw amountInWei)
    | .error _ => none

/-- A handler run on the page: the body of the handler and, when it has changed a cell,
the re-render that change causes followed by `extra` further renders. -/
def Handler.page (h : Handler) (extra : Nat) (env : Env) (s : State) : State × List Event :=
  if (h.run env s).1 = s then
    h.run env s
  else
    ((renders env (extra + 1) (h.run env s).1).1,
      (h.run env s).2 ++ (renders env (extra + 1) (h.run env s).1).2)

/-- Events a refresh can produce: its own start, read calls and console errors. -/
def Event.quiet : Event → Bool
  | .run _ => true
  | .call .balance => true
  | .call .getTaskCount => true
  | .call (.tasks _) => true
  | .consoleError _ => true
  | _ => false

/-- The event is a `contract.assignTask` invocation. -/
def Event.isAssignCall : Event → Bool
  | .call (.assignTask _) => true
  | _ => false

/-- The event is a `contract.completeTask` invocation. -/
def Event.isCompleteCall : Event → Bool
  | .call (.completeTask _) => true
  | _ => false

/-! ## The ledger behind the contract

`DeBountyManager.sol` is not among the sources; the page only imports its ABI.  The
definitions of this section follow sections 3, 4.1, 4.2 and 7 of the specification. -/

namespace Ledger

/-- Modelled from the spec: the caller identity, "an opaque authenticated principal";
the contract source `DeBountyManager.sol` is missing. -/
abbrev Account := String

/-- Modelled from the spec: `Task.status`, one of `Open`, `Assigned`, `Completed`; the
contract source is missing. -/
inductive Status where
  | Open
  | Assigned
  | Completed
deriving DecidableEq, Repr

/-- Modelled from the spec: the `Task` entity of the data model; the contract source is
missing. -/
structure Task where
  id : Nat
  creator : Account
  description : String
  bounty : Nat
  assignee : Option Account
  status : Status
deriving DecidableEq, Repr

/-- Modelled from the spec: the error kinds of the error handling design; the contract
source is missing. -/
inductive Failure where
  | InvalidArgument
  | InsufficientFunds
  | NotFound
  | InvalidState
  | Unauthorized
deriving DecidableEq, Repr

/-- Modelled from the spec: the Ledger Store, owner of all balances (non-negative
integers) and of the append-only, id-indexed task collection; the contract source is
missing. -/
structure Store where
  balances : List (Account × Nat)
  tasks : List Task
deriving DecidableEq, Repr

/-- Modelled from the spec: the store at construction, before any operation. -/
def Store.empty : Store := { balances := [], tasks := [] }

/-- Modelled from the spec: balance lookup in the table; "a missing account is treated
as balance zero, not an error". -/
def lookup (a : Account) : List (Account × Nat) → Nat
  | [] => 0
  | (b, w) :: rest => if b = a then w else lookup a rest

/-- Modelled from the spec: overwrite the entry of an account, creating it when absent. -/
def store (a : Account) (v : Nat) : List (Account × Nat) → List (Account × Nat)
  | [] => [(a, v)]
  | (b, w) :: rest => if b = a then (a, v) :: rest else (b, w) :: store a v rest

/-- Modelled from the spec: `get_balance(account) -> integer`. -/
def get_balance (st : Store) (a : Account) : Nat := lookup a st.balances

/-- Modelled from the spec: `set_balance(account, integer)`. -/
def set_balance (st : Store) (a : Account) (v : Nat) : Store :=
  { st with balances := store a v st.balances }

/-- Modelled from the spec: `task_count() -> integer`. -/
def task_count (st : Store) : Nat := st.tasks.length

/-- Modelled from the spec: `get_task(id) -> Task | NotFound`. -/
def get_task (st : Store) (id : Nat) : Except Failure Task :=
  match st.tasks[id]? with
  | some t => .ok t
  | none => .error .NotFound

/-- Modelled from the spec: `append_task(Task) -> id`; ids increase with creation and
are never reused. -/
def append_task (st : Store) (t : Task) : Store × Nat :=
  ({ st with tasks := st.tasks ++ [{ t with id := st.tasks.length }] }, st.tasks.length)

/-- Modelled from the spec: `update_task_status(id, status, assignee?)`. -/
def update_task_status (st : Store) (id : Nat) (status : Status)
    (assignee : Option Account) : Store :=
  match st.tasks[id]? with
  | some t => { st with tasks := st.tasks.set id { t with status := status, assignee := assignee } }
  | none => st

/-- Modelled from the spec: `deposit(caller, amount)` requires `amount > 0` and increases
the caller's balance by `amount`. -/
def deposit (st : Store) (caller : Account) (amount : Int) : Except Failure Store :=
  if 0 < amount then
    .ok (set_balance st caller (get_balance st caller + amount.toNat))
  else
    .error .InvalidArgument

/-- Modelled from the spec: `withdraw(caller, amount)` requires
`0 < amount <= balance(caller)` and decreases the balance by `amount`; a non-positive
amount is an `InvalidArgument`, too large an amount is `InsufficientFunds`. -/
def withdraw (st : Store) (caller : Account) (amount : Int) : Except Failure Store :=
  if amount ≤ 0 then
    .error .InvalidArgument
  else if amount.toNat ≤ get_balance st caller then
    .ok (set_balance st caller (get_balance st caller - amount.toNat))
  else
    .error .InsufficientFunds

/-- Modelled from the spec: `createTask(caller, description, bounty)` requires
`bounty > 0`, a non-empty description and `balance(caller) >= bounty`; it reserves the
bounty out of the caller's balance and appends an `Open` task without assignee,
returning its id. -/
def createTask (st : Store) (caller : Account) (description : String) (bounty : Int) :
    Except Failure (Store × Nat) :=
  if bounty ≤ 0 || description == "" then
    .error .InvalidArgument
  else if bounty.toNat ≤ get_balance st caller then
    .ok (append_task (set_balance st caller (get_balance st caller - bounty.toNat))
      { id := 0, creator := caller, description := description, bounty := bounty.toNat,
        assignee := none, status := .Open })
  else
    .error .InsufficientFunds

/-- Modelled from the spec: `assignTask(caller, taskId)` requires the task to exist and
be `Open`; it sets the assignee to the caller and the status to `Assigned`. -/
def assignTask (st : Store) (caller : Account) (taskId : Nat) : Except Failure Store :=
  match get_task st taskId with
  | .error e => .error e
  | .ok t =>
    if t.status = .Open then
      .ok (update_task_status st taskId .Assigned (some caller))
    else
      .error .InvalidState

/-- Modelled from the spec: `completeTask(caller, taskId)` requires the task to exist, be
`Assigned`, and the caller to be its assignee or its creator; it pays the escrowed bounty
to the assignee and sets the status to `Completed`. -/
def completeTask (st : Store) (caller : Account) (taskId : Nat) : Except Failure Store :=
  match get_task st taskId with
  | .error e => .error e
  | .ok t =>
    if t.status = .Assigned then
      match t.assignee with
      | none => .error .InvalidState
      | some worker =>
        if caller = worker ∨ caller = t.creator then
          .ok (update_task_status (set_balance st worker (get_balance st worker + t.bounty))
            taskId .Completed (some worker))
        else
          .error .Unauthorized
    else
      .error .InvalidState

/-- Modelled from the spec: the five mutating operations of the external interface. -/
inductive Op where
  | deposit (caller : Account) (amount : Int)
  | withdraw (caller : Account) (amount : Int)
  | createTask (caller : Account) (description : String) (bounty : Int)
  | assignTask (caller : Account) (taskId : Nat)
  | completeTask (caller : Account) (taskId : Nat)
deriving DecidableEq, Repr

/-- Modelled from the spec: one operation through the Call Gateway. -/
def apply (st : Store) : Op → Except Failure Store
  | .deposit caller amount => deposit st caller amount
  | .withdraw caller amount => withdraw st caller amount
  | .createTask caller description bounty =>
    match createTask st caller description bounty with
    | .ok (st1, _) => .ok st1
    | .error e => .error e
  | .assignTask caller taskId => assignTask st caller taskId
  | .completeTask caller taskId => completeTask st caller taskId

/-- Modelled from the spec: a failed operation "leaves the Ledger Store unchanged". -/
def next (st : Store) (op : Op) : Store :=
  match apply st op with
  | .ok st1 => st1
  | .error _ => st

/-- Modelled from the spec: the store after a sequence of operations. -/
def run (st : Store) : List Op → Store
  | [] => st
  | op :: ops => run (next st op) ops

/-- Funds a successful operation brings into the pool. -/
def paidIn (st : Store) (op : Op) : Nat :=
  match op, apply st op with
  | .deposit _ amount, .ok _ => amount.toNat
  | _, _ => 0

/-- Funds a successful operation takes out of the pool. -/
def paidOut (st : Store) (op : Op) : Nat :=
  match op, apply st op with
  | .withdraw _ amount, .ok _ => amount.toNat
  | _, _ => 0

/-- Total deposited over a sequence of operations started in `st`. -/
def totalDeposited (st : Store) : List Op → Nat
  | [] => 0
  | op :: ops => paidIn st op + totalDeposited (next st op) ops

/-- Total withdrawn over a sequence of operations started in `st`. -/
def totalWithdrawn (st : Store) : List Op → Nat
  | [] => 0
  | op :: ops => paidOut st op + totalWithdrawn (next st op) ops

/-- Sum of all account balances. -/
def sumBalances (st : Store) : Nat := (st.balances.map Prod.snd).sum

/-- Bounty a task holds in escrow: its bounty while `Open` or `Assigned`, nothing once
`Completed`. -/
def escrow (t : Task) : Nat :=
  match t.status with
  | .Open => t.bounty
  | .Assigned => t.bounty
  | .Completed => 0

/-- Sum of the bounties of the tasks that are `Open` or `Assigned`. -/
def escrowed (st : Store) : Nat := (st.tasks.map escrow).sum

/-- The scenario of the specification: A deposits 100 and posts a task of 40, B takes
it and it is completed, A tries to withdraw 61 and then withdraws 60. -/
def scenario : List Op :=
  [.deposit "A" 100, .createTask "A" "fix bug" 40, .assignTask "B" 0, .completeTask "B" 0,
   .withdraw "A" 61, .withdraw "A" 60]

end Ledger

/-! ## The listing loop -/

theorem getTasksLoop_ok (env : Env) (n : Nat)
    (k : Nat) : ∀ (i : Nat) (acc : List Task) (log : List Event), n - i = k →
      (∀ j, i ≤ j → j < n → ∃ t, env.tasks j = .ok t) →
      (getTasksLoop env n i acc log).1 = .ok (acc ++ (List.range' i (n - i)).map (taskOr env)) := by
  induction k with
  | zero =>
    intro i acc log hk _
    have hi : ¬ i < n := by omega
    rw [getTasksLoop, if_neg hi, hk]
    simp
  | succ k ih =>
    intro i acc log hk h
    have hi : i < n := by omega
    obtain ⟨t, ht⟩ := h i (le_refl i) hi
    have hstep : n - i = (n - (i + 1)) + 1 := by omega
    have htask : taskOr env i = t := by simp [taskOr, ht]
    rw [getTasksLoop, if_pos hi, ht]
    simp only
    rw [ih (i + 1) (acc ++ [t]) _ (by omega) (fun j hj hjn => h j (by omega) hjn), hstep,
      List.range'_succ]
    simp [htask]

theorem getTasksLoop_error (env : Env) (n j : Nat) (e : Error) (hj : j < n)
    (hfail : env.tasks j = .error e)
    (k : Nat) : ∀ (i : Nat) (acc : List Task) (log : List Event), n - i = k → i ≤ j →
      ∃ e1, (getTasksLoop env n i acc log).1 = .error e1 := by
  induction k with
  | zero => intro i acc log hk hij; omega
  | succ k ih =>
    intro i acc log hk hij
    have hi : i < n := by omega
    rw [getTasksLoop, if_pos hi]
    cases ht : env.tasks i with
    | error e1 => exact ⟨e1, rfl⟩
    | ok t =>
      have hne : i ≠ j := by
        intro h
        rw [h, hfail] at ht
        cases ht
      exact ih (i + 1) _ _ (by omega) (by omega)

theorem getTasksLoop_ok_inv (env : Env) (n : Nat) (i : Nat) (acc : List Task)
    (log : List Event) (r : List Task) (h : (getTasksLoop env n i acc log).1 = .ok r) :
    ∀ j, i ≤ j → j < n → ∃ t, env.tasks j = .ok t := by
  intro j hij hjn
  cases ht : env.tasks j with
  | ok t => exact ⟨t, rfl⟩
  | error e =>
    obtain ⟨e1, he1⟩ := getTasksLoop_error env n j e hjn ht (n - i) i acc log rfl hij
    rw [he1] at h
    cases h

theorem isFullListing_range (env : Env) (n : Nat)
    (h : ∀ j, j < n → ∃ t, env.tasks j = .ok t) :
    IsFullListing env n ((List.range n).map (taskOr env)) := by
  refine ⟨by simp, fun i hi => ?_⟩
  obtain ⟨t, ht⟩ := h i hi
  refine ⟨t, ht, ?_⟩
  simp [List.getElem?_map, List.getElem?_range hi, taskOr, ht]

/-- With a contract and a successful listing, `getTasks` stores exactly the range. -/
theorem getTasks_ok (env : Env) (s : State) (n : Nat) (hc : s.contract.isSome = true)
    (hn : env.getTaskCount = .ok n) (h : ∀ j, j < n → ∃ t, env.tasks j = .ok t) :
    (getTasks env s).1 = { s with tasks := (List.range n).map (taskOr env) } := by
  obtain ⟨c, hc1⟩ := Option.isSome_iff_exists.mp hc
  have hloop := getTasksLoop_ok env n (n - 0) 0 [] [.run .getTasks, .call .getTaskCount] rfl
    (fun j _ hj => h j hj)
  unfold getTasks
  rw [hc1]
  simp only [hn]
  generalize getTasksLoop env n 0 [] [.run .getTasks, .call .getTaskCount] = res at hloop
  obtain ⟨r, log⟩ := res
  simp only at hloop
  subst hloop
  simp [List.range_eq_range']

/-- When the listing fails, `getTasks` changes nothing. -/
theorem getTasks_fail (env : Env) (s : State) (h : ListingFails env) :
    (getTasks env s).1 = s := by
  unfold getTasks
  cases hc : s.contract with
  | none => rfl
  | some c =>
    rcases h with ⟨e, he⟩ | ⟨n, j, e, hn, hj, hfail⟩
    · simp only [he]
    · obtain ⟨e1, he1⟩ := getTasksLoop_error env n j e hj hfail (n - 0) 0 []
        [.run .getTasks, .call .getTaskCount] rfl (Nat.zero_le j)
      simp only [hn]
      generalize getTasksLoop env n 0 [] [.run .getTasks, .call .getTaskCount] = res at he1
      obtain ⟨r, log⟩ := res
      simp only at he1
      subst he1
      rfl

/-- Every run of `getTasks` either keeps the state or stores a full listing. -/
theorem getTasks_cases (env : Env) (s : State) :
    (getTasks env s).1 = s ∨
      ∃ n, env.getTaskCount = .ok n ∧ (∀ j, j < n → ∃ t, env.tasks j = .ok t) ∧
        (getTasks env s).1 = { s with tasks := (List.range n).map (taskOr env) } := by
  by_cases hc : s.contract.isSome = true
  · cases hn : env.getTaskCount with
    | error e => left; exact getTasks_fail env s (Or.inl ⟨e, hn⟩)
    | ok n =>
      by_cases hall : ∀ j, j < n → ∃ t, env.tasks j = .ok t
      · right
        exact ⟨n, rfl, hall, getTasks_ok env s n hc hn hall⟩
      · left
        push_neg at hall
        obtain ⟨j, hj, hno⟩ := hall
        cases ht : env.tasks j with
        | ok t => exact absurd ht (hno t)
        | error e => exact getTasks_fail env s (Or.inr ⟨n, j, e, hn, hj, ht⟩)
  · left
    have hnone : s.contract = none := by
      cases h : s.contract with
      | none => rfl
      | some c => simp [h] at hc
    unfold getTasks
    rw [hnone]

/-- The refresh `getTasks` writes no cell other than `tasks`. -/
theorem getTasks_frame (env : Env) (s : State) :
    (getTasks env s).1 = { s with tasks := (getTasks env s).1.tasks } := by
  rcases getTasks_cases env s with h | ⟨n, _, _, h⟩
  · rw [h]
  · rw [h]

/-- The refresh `getBalance` writes no cell other than `balance`. -/
theorem getBalance_frame (env : Env) (s : State) :
    (getBalance env s).1 = { s with balance := (getBalance env s).1.balance } := by
  obtain ⟨w, a, c, b, ts, d, nb, ia, ic⟩ := s
  cases c with
  | none => rfl
  | some c =>
    unfold getBalance
    cases env.balance with
    | ok b => rfl
    | error e => rfl

/-! ## Listing claims -/

/-- C1: for a state with a contract whose `getTaskCount` returns `n` and whose
`tasks(i)` succeeds for every `i < n`, `getTasks` stores a list of length exactly `n`
whose entry `i` is the result of `tasks(i)`, and the empty list when `n = 0`; no other
cell changes. -/
theorem getTasks_lists_in_creation_order (env : Env) (s : State) (n : Nat)
    (hc : s.contract.isSome = true) (hn : env.getTaskCount = .ok n)
    (hall : ∀ i, i < n → ∃ t, env.tasks i = .ok t) :
    (getTasks env s).1.tasks.length = n ∧
      (∀ i, i < n → ∃ t, env.tasks i = .ok t ∧ (getTasks env s).1.tasks[i]? = some t) ∧
      (n = 0 → (getTasks env s).1.tasks = []) ∧
      (getTasks env s).1 = { s with tasks := (getTasks env s).1.tasks } := by
  have hfull := isFullListing_range env n hall
  rw [getTasks_ok env s n hc hn hall]
  refine ⟨hfull.1, hfull.2, ?_, rfl⟩
  intro h0
  subst h0
  rfl

/-- Witness for C1: a contract holding two tasks, listed from a connected page. -/
theorem getTasks_lists_in_creation_order_witness :
    (getTasks goodEnv readyState).1.tasks.length = 2 ∧
      ∃ t, goodEnv.tasks 1 = .ok t ∧ (getTasks goodEnv readyState).1.tasks[1]? = some t :=
  ⟨(getTasks_lists_in_creation_order goodEnv readyState 2 rfl rfl
      (fun i hi => ⟨sampleTask i, by simp [goodEnv, hi]⟩)).1,
    (getTasks_lists_in_creation_order goodEnv readyState 2 rfl rfl
      (fun i hi => ⟨sampleTask i, by simp [goodEnv, hi]⟩)).2.1 1 (by decide)⟩

/-- C8: `getTasks` is all-or-nothing.  If `getTaskCount` fails or `tasks(i)` fails for
some `i` below the count, the `tasks` cell (indeed the whole state) is what it was; and
on every run the `tasks` cell is either what it was or the full listing, never a proper
part of it. -/
theorem getTasks_all_or_nothing (env : Env) (s : State) :
    (ListingFails env → (getTasks env s).1.tasks = s.tasks ∧ (getTasks env s).1 = s) ∧
      ((getTasks env s).1.tasks = s.tasks ∨
        ∃ n, env.getTaskCount = .ok n ∧ IsFullListing env n (getTasks env s).1.tasks) := by
  constructor
  · intro h
    rw [getTasks_fail env s h]
    exact ⟨rfl, rfl⟩
  · rcases getTasks_cases env s with h | ⟨n, hn, hall, h⟩
    · left; rw [h]
    · right
      refine ⟨n, hn, ?_⟩
      rw [h]
      exact isFullListing_range env n hall

/-- Witness for C8: three tasks announced, the read of the second one rejected; the one
task already shown stays. -/
theorem getTasks_all_or_nothing_witness :
    (getTasks badEnv { readyState with tasks := [sampleTask 0] }).1.tasks = [sampleTask 0] ∧
      (getTasks badEnv { readyState with tasks := [sampleTask 0] }).1 =
        { readyState with tasks := [sampleTask 0] } :=
  (getTasks_all_or_nothing badEnv { readyState with tasks := [sampleTask 0] }).1
    (Or.inr ⟨3, 1, "call failed", rfl, by decide, rfl⟩)

/-! ## Account claims -/

/-- C10: for every list of accounts and every prior state, `handleAccounts` and
`handleAccountsChanged` leave the same state behind, and its `account` cell is the first
entry of the list when there is one and the prior account otherwise. -/
theorem account_handlers_agree (accounts : List String) (s : State) :
    (handleAccounts (some accounts) s).1 = (handleAccountsChanged accounts s).1 ∧
      (handleAccounts (some accounts) s).1.account = accountSpec accounts s.account ∧
      (handleAccountsChanged accounts s).1.account = accountSpec accounts s.account := by
  cases accounts with
  | nil => exact ⟨rfl, rfl, rfl⟩
  | cons a rest => exact ⟨rfl, rfl, rfl⟩

/-! ## Shape of a handler run -/

theorem getTasksLoop_events (P : Event → Prop) (hP : ∀ i, P (.call (.tasks i)))
    (env : Env) (n : Nat)
    (k : Nat) : ∀ (i : Nat) (acc : List Task) (log : List Event), n - i = k →
      (∀ e, e ∈ log → P e) →
      ∀ e, e ∈ (getTasksLoop env n i acc log).2 → P e := by
  induction k with
  | zero =>
    intro i acc log hk hlog
    have hi : ¬ i < n := by omega
    rw [getTasksLoop, if_neg hi]
    exact hlog
  | succ k ih =>
    intro i acc log hk hlog
    have hi : i < n := by omega
    have hlog1 : ∀ e, e ∈ log ++ [Event.call (.tasks i)] → P e := by
      intro e he
      rcases List.mem_append.mp he with h | h
      · exact hlog e h
      · rw [List.mem_singleton.mp h]; exact hP i
    rw [getTasksLoop, if_pos hi]
    cases env.tasks i with
    | error e1 => exact hlog1
    | ok t => exact ih (i + 1) _ _ (by omega) hlog1

/-- Every event of a `getTasks` run is its start, one of its reads or a console error. -/
theorem getTasks_events (P : Event → Prop) (h1 : P (.run .getTasks))
    (h2 : P (.call .getTaskCount)) (h3 : ∀ i, P (.call (.tasks i)))
    (h4 : ∀ m, P (.consoleError m)) (env : Env) (s : State) :
    ∀ e, e ∈ (getTasks env s).2 → P e := by
  unfold getTasks
  cases s.contract with
  | none =>
    intro e he
    rw [List.mem_singleton.mp he]; exact h1
  | some c =>
    cases hn : env.getTaskCount with
    | error e1 =>
      intro e he
      simp only [List.mem_cons, List.mem_singleton, List.not_mem_nil, or_false] at he
      rcases he with h | h | h <;> rw [h]
      · exact h1
      · exact h2
      · exact h4 _
    | ok n =>
      have hloop := getTasksLoop_events P h3 env n (n - 0) 0 []
        [.run .getTasks, .call .getTaskCount] rfl (by
          intro e he
          simp only [List.mem_cons, List.mem_singleton, List.not_mem_nil, or_false] at he
          rcases he with h | h <;> rw [h]
          · exact h1
          · exact h2)
      simp only
      generalize getTasksLoop env n 0 [] [.run .getTasks, .call .getTaskCount] = res at hloop
      obtain ⟨r, log⟩ := res
      cases r with
      | ok ts => exact hloop
      | error e1 =>
        intro e he
        rcases List.mem_append.mp he with h | h
        · exact hloop e h
        · rw [List.mem_singleton.mp h]; exact h4 _

theorem getTasks_quiet (env : Env) (s : State) :
    ∀ e, e ∈ (getTasks env s).2 → e.quiet = true :=
  getTasks_events (fun e => e.quiet = true) rfl rfl (fun _ => rfl) (fun _ => rfl) env s

/-- A `getTasks` run never starts `getBalance` nor reads `balance()`. -/
theorem getTasks_no_balance (env : Env) (s : State) :
    ∀ e, e ∈ (getTasks env s).2 → e ≠ .run .getBalance ∧ e ≠ .call .balance :=
  getTasks_events (fun e => e ≠ .run .getBalance ∧ e ≠ .call .balance)
    ⟨by decide, by simp⟩ ⟨by simp, by simp⟩ (fun _ => ⟨by simp, by simp⟩)
    (fun _ => ⟨by simp, by simp⟩) env s

theorem getBalance_quiet (env : Env) (s : State) :
    ∀ e, e ∈ (getBalance env s).2 → e.quiet = true := by
  unfold getBalance
  cases s.contract with
  | none => simp [Event.quiet]
  | some c =>
    cases env.balance with
    | ok b => simp [Event.quiet]
    | error e1 => simp [Event.quiet]

/-- Every run of a handler has one of four shapes: guard not passed; `parseEther` threw;
the transaction failed; the transaction confirmed and a refresh followed. -/
theorem handler_run_cases (h : Handler) (env : Env) (s : State) :
    (h.guard s = false ∧ h.run env s = (s, [])) ∨
    (h.guard s = true ∧ h.request env s = none ∧
      ∃ m, h.run env s = (s, [.consoleError m])) ∨
    (∃ c, h.guard s = true ∧ h.request env s = some c ∧ env.send c ≠ .confirmed ∧
      ∃ m, h.run env s = (s, [.call c, .consoleError m])) ∨
    (∃ c, h.guard s = true ∧ h.request env s = some c ∧ env.send c = .confirmed ∧
      ∃ m rest, (h.run env s).2 = [.call c, .confirmed c, .alert m] ++ rest ∧
        ∀ e, e ∈ rest → e.quiet = true) := by
  cases h
  · simp only [Handler.guard, Handler.run, Handler.request, createTask, assignTask, completeTask, deposit, withdraw]
    cases hg : (s.contract.isSome && truthy s.newTaskDescription && truthy s.newTaskBounty) with
    | false => left; simp
    | true =>
      right
      cases hp : env.parseEther s.newTaskBounty with
      | error e1 => left; simp
      | ok wei =>
        right
        cases hs : env.send (.createTask s.newTaskDescription wei) with
        | rejected => left; simp [hs]
        | reverted => left; simp [hs]
        | confirmed =>
          right
          exact ⟨_, rfl, rfl, hs, "Task created successfully!", _, by simp [hs], getTasks_quiet env s⟩
  · simp only [Handler.guard, Handler.run, Handler.request, createTask, assignTask, completeTask, deposit, withdraw]
    cases hg : (s.contract.isSome && truthy s.taskIdToAssign) with
    | false => left; simp
    | true =>
      right
      right
      cases hs : env.send (.assignTask s.taskIdToAssign) with
      | rejected => left; simp [hs]
      | reverted => left; simp [hs]
      | confirmed =>
        right
        exact ⟨_, rfl, rfl, hs, "Task assigned successfully!", _, by simp [hs], getTasks_quiet env s⟩
  · simp only [Handler.guard, Handler.run, Handler.request, createTask, assignTask, completeTask, deposit, withdraw]
    cases hg : (s.contract.isSome && truthy s.taskIdToComplete) with
    | false => left; simp
    | true =>
      right
      right
      cases hs : env.send (.completeTask s.taskIdToComplete) with
      | rejected => left; simp [hs]
      | reverted => left; simp [hs]
      | confirmed =>
        right
        exact ⟨_, rfl, rfl, hs, "Task completed successfully!", _, by simp [hs], getTasks_quiet env s⟩
  · simp only [Handler.guard, Handler.run, Handler.request, createTask, assignTask, completeTask, deposit, withdraw]
    cases hg : (s.contract.isSome) with
    | false => left; simp
    | true =>
      right
      cases hp : env.parseEther "1" with
      | error e1 => left; simp
      | ok wei =>
        right
        cases hs : env.send (.deposit wei) with
        | rejected => left; simp [hs]
        | reverted => left; simp [hs]
        | confirmed =>
          right
          exact ⟨_, rfl, rfl, hs, "Deposited 1 ETH", _, by simp [hs], getBalance_quiet env s⟩
  · simp only [Handler.guard, Handler.run, Handler.request, createTask, assignTask, completeTask, deposit, withdraw]
    cases hg : (s.contract.isSome) with
    | false => left; simp
    | true =>
      right
      cases hp : env.parseEther "1" with
      | error e1 => left; simp
      | ok wei =>
        right
        cases hs : env.send (.withdraw wei) with
        | rejected => left; simp [hs]
        | reverted => left; simp [hs]
        | confirmed =>
          right
          exact ⟨_, rfl, rfl, hs, "Withdrew 1 ETH", _, by simp [hs], getBalance_quiet env s⟩

theorem quiet_not_assign (e : Event) (h : e.quiet = true) : e.isAssignCall = false := by
  cases e with
  | call c => cases c <;> simp_all [Event.quiet, Event.isAssignCall]
  | _ => rfl

theorem quiet_not_complete (e : Event) (h : e.quiet = true) : e.isCompleteCall = false := by
  cases e with
  | call c => cases c <;> simp_all [Event.quiet, Event.isCompleteCall]
  | _ => rfl

theorem filter_quiet_nil (p : Event → Bool) (hp : ∀ e, e.quiet = true → p e = false)
    (rest : List Event) (h : ∀ e, e ∈ rest → e.quiet = true) : rest.filter p = [] := by
  rw [List.filter_eq_nil_iff]
  intro e he
  simp [hp e (h e he)]

theorem getTasks_balance (env : Env) (s : State) : (getTasks env s).1.balance = s.balance := by
  have h := congrArg State.balance (getTasks_frame env s)
  exact h

/-- The only transaction a handler run invokes is its request, and it does invoke it
once the guard has passed. -/
theorem handler_calls (h : Handler) (env : Env) (s : State) (c : Call)
    (hreq : h.request env s = some c) :
    (∀ d, Event.call d ∈ (h.run env s).2 → (Event.call d).quiet = false → d = c) ∧
      (h.guard s = true → Event.call c ∈ (h.run env s).2) := by
  rcases handler_run_cases h env s with ⟨hg, hr⟩ | ⟨_, hn, _⟩ | ⟨c1, _, hreq1, _, m, hr⟩ |
    ⟨c1, _, hreq1, _, m, rest, hr, hq⟩
  · rw [hr, hg]; simp
  · rw [hn] at hreq; cases hreq
  · rw [hreq] at hreq1; cases hreq1
    rw [hr]
    refine ⟨?_, fun _ => List.mem_cons_self _ _⟩
    intro d he _
    simp only [List.mem_cons, List.mem_singleton, List.not_mem_nil, or_false] at he
    rcases he with h1 | h1
    · cases h1; rfl
    · cases h1
  · rw [hreq] at hreq1; cases hreq1
    rw [hr]
    refine ⟨?_, fun _ => List.mem_cons_self _ _⟩
    intro d he hnq
    simp only [List.cons_append, List.nil_append, List.mem_cons] at he
    rcases he with h1 | h1 | h1 | h1
    · cases h1; rfl
    · cases h1
    · cases h1
    · rw [hq _ h1] at hnq; cases hnq

/-- On a run whose guard has passed, a filter that rejects refresh events, confirmations,
alerts and console errors keeps exactly the handler's own call. -/
theorem handler_filter (h : Handler) (env : Env) (s : State) (c : Call)
    (hreq : h.request env s = some c) (hg : h.guard s = true) (p : Event → Bool)
    (hcall : p (.call c) = true) (hq : ∀ e, e.quiet = true → p e = false)
    (hconf : p (.confirmed c) = false) (halert : ∀ m, p (.alert m) = false)
    (herr : ∀ m, p (.consoleError m) = false) :
    (h.run env s).2.filter p = [.call c] := by
  rcases handler_run_cases h env s with ⟨hg1, _⟩ | ⟨_, hn, _⟩ | ⟨c1, _, hreq1, _, m, hr⟩ |
    ⟨c1, _, hreq1, _, m, rest, hr, hrest⟩
  · rw [hg] at hg1; cases hg1
  · rw [hn] at hreq; cases hreq
  · rw [hreq] at hreq1; cases hreq1
    rw [hr]
    simp [List.filter, hcall, herr]
  · rw [hreq] at hreq1; cases hreq1
    rw [hr, List.filter_append, filter_quiet_nil p hq rest hrest]
    simp [List.filter, hcall, hconf, halert]

/-! ## Handler claims -/

/-- C3: for each of createTask, assignTask, completeTask, deposit and withdraw and every
starting state, if the contract call is rejected or the wait for its confirmation fails,
the state after the handler equals the state before (all cells), and neither `getTasks`
nor `getBalance` is started. -/
theorem failed_operation_leaves_state_unchanged (h : Handler) (env : Env) (s : State)
    (c : Call) (hreq : h.request env s = some c)
    (hfail : env.send c = .rejected ∨ env.send c = .reverted) :
    (h.run env s).1 = s ∧ ∀ f, Event.run f ∉ (h.run env s).2 := by
  rcases handler_run_cases h env s with ⟨_, hr⟩ | ⟨_, _, m, hr⟩ | ⟨c1, _, _, _, m, hr⟩ |
    ⟨c1, _, hreq1, hs, _⟩
  · rw [hr]; simp
  · rw [hr]; simp
  · rw [hr]; simp
  · rw [hreq] at hreq1
    cases hreq1
    rcases hfail with hf | hf <;> rw [hs] at hf <;> cases hf

/-- Witness for C3: a rejected `createTask` transaction on a connected page. -/
theorem failed_operation_leaves_state_unchanged_witness :
    (createTask badEnv readyState).1 = readyState ∧
      Event.run .getTasks ∉ (createTask badEnv readyState).2 :=
  ⟨(failed_operation_leaves_state_unchanged .createTask badEnv readyState
      (.createTask "fix bug" 0) rfl (Or.inl rfl)).1,
    (failed_operation_leaves_state_unchanged .createTask badEnv readyState
      (.createTask "fix bug" 0) rfl (Or.inl rfl)).2 .getTasks⟩

/-- C4: in each of the five handlers no contract call is issued unless the guard has
passed; an alert is emitted only when the call and the wait for its confirmation both
succeeded; and on every run whatever precedes an alert is exactly the call followed by
its confirmation, and what precedes the confirmation is exactly the call. -/
theorem handler_order (h : Handler) (env : Env) (s : State) :
    ((∃ c, Event.call c ∈ (h.run env s).2) → h.guard s = true) ∧
      (∀ m, Event.alert m ∈ (h.run env s).2 →
        ∃ c, h.request env s = some c ∧ env.send c = .confirmed) ∧
      (∀ pre post m, (h.run env s).2 = pre ++ Event.alert m :: post →
        ∃ c, h.request env s = some c ∧ pre = [.call c, .confirmed c]) ∧
      (∀ pre post c, (h.run env s).2 = pre ++ Event.confirmed c :: post →
        pre = [.call c]) := by
  rcases handler_run_cases h env s with ⟨_, hr⟩ | ⟨_, _, m, hr⟩ | ⟨c1, hg, _, _, m, hr⟩ |
    ⟨c1, hg, hreq1, hs, m, rest, hr, hq⟩
  · rw [hr]; simp
  · rw [hr]
    refine ⟨by simp, by simp, ?_, ?_⟩
    · intro pre post m1 hpre
      rcases pre with _ | ⟨x, pre⟩ <;> simp at hpre
    · intro pre post c hpre
      rcases pre with _ | ⟨x, pre⟩ <;> simp at hpre
  · rw [hr]
    refine ⟨fun _ => hg, by simp, ?_, ?_⟩
    · intro pre post m1 hpre
      rcases pre with _ | ⟨x, _ | ⟨y, pre⟩⟩ <;> simp at hpre
    · intro pre post c hpre
      rcases pre with _ | ⟨x, _ | ⟨y, pre⟩⟩ <;> simp at hpre
  · rw [hr]
    have hna : ∀ m1, Event.alert m1 ∉ rest := fun m1 hm => by
      have := hq _ hm
      simp [Event.quiet] at this
    have hnc : ∀ c, Event.confirmed c ∉ rest := fun c hm => by
      have := hq _ hm
      simp [Event.quiet] at this
    refine ⟨fun _ => hg, fun _ _ => ⟨c1, hreq1, hs⟩, ?_, ?_⟩
    · intro pre post m1 hpre
      refine ⟨c1, hreq1, ?_⟩
      rcases pre with _ | ⟨x, _ | ⟨y, _ | ⟨z, pre⟩⟩⟩
      · simp at hpre
      · simp at hpre
      · simp at hpre
        rw [hpre.1, hpre.2.1]
      · simp at hpre
        exact absurd (hpre.2.2.2 ▸ List.mem_append_right pre (List.mem_cons_self _ _))
          (hna m1)
    · intro pre post c hpre
      rcases pre with _ | ⟨x, _ | ⟨y, pre⟩⟩
      · simp at hpre
      · simp at hpre
        rw [← hpre.1, hpre.2.1]
      · simp at hpre
        rcases pre with _ | ⟨z, pre⟩
        · simp at hpre
        · simp at hpre
          exact absurd (hpre.2.2.2 ▸ List.mem_append_right pre (List.mem_cons_self _ _))
            (hnc c)

/-- Witness for C4: a confirmed `assignTask` run on a connected page. -/
theorem handler_order_witness :
    Handler.guard readyState .assignTask = true ∧
      ∃ c, Handler.request goodEnv readyState .assignTask = some c ∧
        goodEnv.send c = .confirmed :=
  ⟨(handler_order .assignTask goodEnv readyState).1
      ⟨.assignTask "0", List.mem_cons_self _ _⟩,
    (handler_order .assignTask goodEnv readyState).2.1 "Task assigned successfully!"
      (List.mem_cons_of_mem _ (List.mem_cons_of_mem _ (List.mem_cons_self _ _)))⟩

/-- C5: the value of every `deposit` call the deposit handler issues, and the amount of
every `withdraw` call the withdraw handler issues, is what `parseEther("1")` returns; with
`parseEther("1") = 10^18` wei it is exactly `10^18`, hence positive, whatever the state,
and with a contract present the call is indeed issued. -/
theorem deposit_withdraw_one_ether (env : Env) (s : State)
    (hparse : env.parseEther "1" = .ok (10 ^ 18)) :
    (∀ v, Event.call (.deposit v) ∈ (deposit env s).2 → v = 10 ^ 18 ∧ 0 < v) ∧
      (∀ a, Event.call (.withdraw a) ∈ (withdraw env s).2 → a = 10 ^ 18 ∧ 0 < a) ∧
      (s.contract.isSome = true →
        Event.call (.deposit (10 ^ 18)) ∈ (deposit env s).2 ∧
          Event.call (.withdraw (10 ^ 18)) ∈ (withdraw env s).2) := by
  have hpos : (0 : Int) < 10 ^ 18 := by norm_num
  have hd : Handler.request env s .deposit = some (.deposit (10 ^ 18)) := by
    simp [Handler.request, hparse]
  have hw : Handler.request env s .withdraw = some (.withdraw (10 ^ 18)) := by
    simp [Handler.request, hparse]
  refine ⟨?_, ?_, ?_⟩
  · intro v hv
    have h1 := (handler_calls .deposit env s _ hd).1 _ hv rfl
    simp only [Call.deposit.injEq] at h1
    rw [h1]; exact ⟨rfl, hpos⟩
  · intro a ha
    have h1 := (handler_calls .withdraw env s _ hw).1 _ ha rfl
    simp only [Call.withdraw.injEq] at h1
    rw [h1]; exact ⟨rfl, hpos⟩
  · intro hc
    exact ⟨(handler_calls .deposit env s _ hd).2 hc, (handler_calls .withdraw env s _ hw).2 hc⟩

/-- Witness for C5: the reference `parseEther` maps "1" to `10^18`, and on a connected
page both calls are issued with that amount. -/
theorem deposit_withdraw_one_ether_witness :
    ethersParseEther "1" = .ok (10 ^ 18) ∧
      Event.call (.deposit (10 ^ 18)) ∈ (deposit goodEnv readyState).2 ∧
      Event.call (.withdraw (10 ^ 18)) ∈ (withdraw goodEnv readyState).2 :=
  ⟨rfl, (deposit_withdraw_one_ether goodEnv readyState rfl).2.2 rfl⟩

/-- C7: for every state with a contract and a non-empty task id in the form (the text
"0" included), `assignTask` issues exactly one `contract.assignTask` call, carrying that
id unchanged, and `completeTask` exactly one `contract.completeTask` call, carrying that
id unchanged; when the transaction confirms, the id cell is reset to the empty string. -/
theorem task_ids_pass_through (env : Env) (s : State) (hc : s.contract.isSome = true) :
    (s.taskIdToAssign ≠ "" →
        (assignTask env s).2.filter Event.isAssignCall = [.call (.assignTask s.taskIdToAssign)] ∧
          (env.send (.assignTask s.taskIdToAssign) = .confirmed →
            (assignTask env s).1.taskIdToAssign = "")) ∧
      (s.taskIdToComplete ≠ "" →
        (completeTask env s).2.filter Event.isCompleteCall =
            [.call (.completeTask s.taskIdToComplete)] ∧
          (env.send (.completeTask s.taskIdToComplete) = .confirmed →
            (completeTask env s).1.taskIdToComplete = "")) := by
  constructor
  · intro hne
    have hg : Handler.guard s .assignTask = true := by simp [Handler.guard, hc, truthy, hne]
    refine ⟨handler_filter .assignTask env s _ rfl hg Event.isAssignCall rfl
      quiet_not_assign rfl (fun _ => rfl) (fun _ => rfl), ?_⟩
    intro hs
    simp [assignTask, hc, truthy, hne, hs]
  · intro hne
    have hg : Handler.guard s .completeTask = true := by simp [Handler.guard, hc, truthy, hne]
    refine ⟨handler_filter .completeTask env s _ rfl hg Event.isCompleteCall rfl
      quiet_not_complete rfl (fun _ => rfl) (fun _ => rfl), ?_⟩
    intro hs
    simp [completeTask, hc, truthy, hne, hs]

/-- Witness for C7: the id "0" typed into both forms of a connected page. -/
theorem task_ids_pass_through_witness :
    ((assignTask goodEnv readyState).2.filter Event.isAssignCall = [.call (.assignTask "0")] ∧
        (goodEnv.send (.assignTask "0") = .confirmed →
          (assignTask goodEnv readyState).1.taskIdToAssign = "")) ∧
      ((completeTask goodEnv readyState).2.filter Event.isCompleteCall =
          [.call (.completeTask "0")] ∧
        (goodEnv.send (.completeTask "0") = .confirmed →
          (completeTask goodEnv readyState).1.taskIdToComplete = "")) :=
  ⟨(task_ids_pass_through goodEnv readyState rfl).1 (by decide),
    (task_ids_pass_through goodEnv readyState rfl).2 (by decide)⟩

/-- The bodies of the handlers alone, before any re-render: those of createTask,
assignTask and completeTask leave the `balance` cell as it is and neither start
`getBalance` nor read `balance()`; those of deposit and withdraw leave the `tasks` list
and the four form cells as they are. -/
theorem handler_bodies_frame (env : Env) (s : State) :
    ((createTask env s).1.balance = s.balance ∧
        (assignTask env s).1.balance = s.balance ∧
        (completeTask env s).1.balance = s.balance) ∧
      (∀ e, e ∈ (createTask env s).2 ∨ e ∈ (assignTask env s).2 ∨ e ∈ (completeTask env s).2 →
        e ≠ .run .getBalance ∧ e ≠ .call .balance) ∧
      ((deposit env s).1.tasks = s.tasks ∧
        (deposit env s).1.newTaskDescription = s.newTaskDescription ∧
        (deposit env s).1.newTaskBounty = s.newTaskBounty ∧
        (deposit env s).1.taskIdToAssign = s.taskIdToAssign ∧
        (deposit env s).1.taskIdToComplete = s.taskIdToComplete) ∧
      ((withdraw env s).1.tasks = s.tasks ∧
        (withdraw env s).1.newTaskDescription = s.newTaskDescription ∧
        (withdraw env s).1.newTaskBounty = s.newTaskBounty ∧
        (withdraw env s).1.taskIdToAssign = s.taskIdToAssign ∧
        (withdraw env s).1.taskIdToComplete = s.taskIdToComplete) := by
  have hb := getTasks_balance env s
  have hnb := getTasks_no_balance env s
  have hf := getBalance_frame env s
  refine ⟨⟨?_, ?_, ?_⟩, ?_, ?_, ?_⟩
  · unfold createTask
    split
    · split
      · rfl
      · split <;> first | rfl | exact hb
    · rfl
  · unfold assignTask
    split
    · split <;> first | rfl | exact hb
    · rfl
  · unfold completeTask
    split
    · split <;> first | rfl | exact hb
    · rfl
  · intro e he
    rcases he with he | he | he
    · unfold createTask at he
      split at he
      · split at he
        · simp at he; rw [he]; simp
        · split at he
          · simp at he; rcases he with h | h <;> rw [h] <;> simp
          · simp at he; rcases he with h | h <;> rw [h] <;> simp
          · simp at he
            rcases he with h | h | h | h
            · rw [h]; simp
            · rw [h]; simp
            · rw [h]; simp
            · exact hnb e h
      · simp at he
    · unfold assignTask at he
      split at he
      · split at he
        · simp at he; rcases he with h | h <;> rw [h] <;> simp
        · simp at he; rcases he with h | h <;> rw [h] <;> simp
        · simp at he
          rcases he with h | h | h | h
          · rw [h]; simp
          · rw [h]; simp
          · rw [h]; simp
          · exact hnb e h
      · simp at he
    · unfold completeTask at he
      split at he
      · split at he
        · simp at he; rcases he with h | h <;> rw [h] <;> simp
        · simp at he; rcases he with h | h <;> rw [h] <;> simp
        · simp at he
          rcases he with h | h | h | h
          · rw [h]; simp
          · rw [h]; simp
          · rw [h]; simp
          · exact hnb e h
      · simp at he
  · unfold deposit
    split
    · split
      · exact ⟨rfl, rfl, rfl, rfl, rfl⟩
      · split
        · exact ⟨rfl, rfl, rfl, rfl, rfl⟩
        · exact ⟨rfl, rfl, rfl, rfl, rfl⟩
        · rw [hf]; exact ⟨rfl, rfl, rfl, rfl, rfl⟩
    · exact ⟨rfl, rfl, rfl, rfl, rfl⟩
  · unfold withdraw
    split
    · split
      · exact ⟨rfl, rfl, rfl, rfl, rfl⟩
      · split
        · exact ⟨rfl, rfl, rfl, rfl, rfl⟩
        · exact ⟨rfl, rfl, rfl, rfl, rfl⟩
        · rw [hf]; exact ⟨rfl, rfl, rfl, rfl, rfl⟩
    · exact ⟨rfl, rfl, rfl, rfl, rfl⟩

/-! ## Conservation of funds in the ledger -/

namespace Ledger

theorem sum_store (a : Account) (v : Nat) (l : List (Account × Nat)) :
    ((store a v l).map Prod.snd).sum + lookup a l = (l.map Prod.snd).sum + v := by
  induction l with
  | nil => simp [store, lookup]
  | cons hd tl ih =>
    obtain ⟨b, w⟩ := hd
    by_cases hb : b = a
    · simp [store, lookup, hb]; omega
    · simp [store, lookup, hb]; omega

theorem sum_set (t1 : Task) (l : List Task) : ∀ (i : Nat) (t : Task), l[i]? = some t →
    ((l.set i t1).map escrow).sum + escrow t = (l.map escrow).sum + escrow t1 := by
  induction l with
  | nil => intro i t h; simp at h
  | cons hd tl ih =>
    intro i t h
    cases i with
    | zero =>
      simp at h
      subst h
      simp; omega
    | succ i =>
      simp at h
      have := ih i t h
      simp only [List.set_cons_succ, List.map_cons, List.sum_cons]; omega

theorem sumBalances_set_balance (st : Store) (a : Account) (v : Nat) :
    sumBalances (set_balance st a v) + get_balance st a = sumBalances st + v :=
  sum_store a v st.balances

theorem escrowed_set_balance (st : Store) (a : Account) (v : Nat) :
    escrowed (set_balance st a v) = escrowed st := rfl

theorem get_task_set_balance (st : Store) (a : Account) (v : Nat) (id : Nat) :
    get_task (set_balance st a v) id = get_task st id := rfl

theorem sumBalances_update (st : Store) (id : Nat) (status : Status)
    (assignee : Option Account) :
    sumBalances (update_task_status st id status assignee) = sumBalances st := by
  unfold update_task_status
  cases st.tasks[id]? <;> rfl

theorem escrowed_update (st : Store) (id : Nat) (status : Status)
    (assignee : Option Account) (t : Task) (h : get_task st id = .ok t) :
    escrowed (update_task_status st id status assignee) + escrow t =
      escrowed st + escrow { t with status := status, assignee := assignee } := by
  unfold get_task at h
  unfold update_task_status
  cases ht : st.tasks[id]? with
  | none => rw [ht] at h; cases h
  | some t0 =>
    rw [ht] at h
    cases h
    exact sum_set _ st.tasks id _ ht

/-- One operation keeps the books balanced: what is held after it, plus what it paid
out, is what was held before it plus what it paid in. -/
theorem step_conserves (st : Store) (op : Op) :
    sumBalances (next st op) + escrowed (next st op) + paidOut st op =
      sumBalances st + escrowed st + paidIn st op := by
  cases op with
  | deposit caller amount =>
    simp only [next, paidIn, paidOut, apply, deposit]
    split_ifs with h
    · have := sumBalances_set_balance st caller (get_balance st caller + amount.toNat)
      simp only [escrowed_set_balance]
      omega
    · simp
  | withdraw caller amount =>
    simp only [next, paidIn, paidOut, apply, withdraw]
    split_ifs with h1 h2
    · simp
    · have := sumBalances_set_balance st caller (get_balance st caller - amount.toNat)
      simp only [escrowed_set_balance]
      omega
    · simp
  | createTask caller description bounty =>
    simp only [next, paidIn, paidOut, apply, createTask]
    split_ifs with h1 h2
    · simp
    · have := sumBalances_set_balance st caller (get_balance st caller - bounty.toNat)
      simp only [append_task, sumBalances, escrowed, set_balance, List.map_append,
        List.sum_append, List.map_cons, List.map_nil, List.sum_cons, List.sum_nil, escrow] at this ⊢
      omega
    · simp
  | assignTask caller taskId =>
    simp only [next, paidIn, paidOut, apply, assignTask]
    cases ht : get_task st taskId with
    | error e => simp
    | ok t =>
      simp only
      split_ifs with h1
      · have := escrowed_update st taskId .Assigned (some caller) t ht
        simp only [sumBalances_update]
        simp only [escrow, h1] at this
        omega
      · simp
  | completeTask caller taskId =>
    simp only [next, paidIn, paidOut, apply, completeTask]
    cases ht : get_task st taskId with
    | error e => simp
    | ok t =>
      simp only
      split_ifs with h1
      · cases hw : t.assignee with
        | none => simp
        | some worker =>
          simp only
          split_ifs with h2
          · have h3 := escrowed_update (set_balance st worker (get_balance st worker + t.bounty))
              taskId .Completed (some worker) t ht
            have h4 := sumBalances_set_balance st worker (get_balance st worker + t.bounty)
            simp only [sumBalances_update]
            simp only [escrow, h1, escrowed_set_balance] at h3
            omega
          · simp
      · simp

theorem run_conserves (ops : List Op) : ∀ st : Store,
    sumBalances (run st ops) + escrowed (run st ops) + totalWithdrawn st ops =
      sumBalances st + escrowed st + totalDeposited st ops := by
  induction ops with
  | nil => intro st; rfl
  | cons op ops ih =>
    intro st
    have h1 := ih (next st op)
    have h2 := step_conserves st op
    simp only [run, totalWithdrawn, totalDeposited]
    omega

end Ledger

/-- C6: after every sequence of deposit, withdraw, createTask, assignTask and
completeTask operations on the ledger (started empty), the sum of all account balances
plus the sum of the bounties of the tasks that are Open or Assigned equals total
deposited minus total withdrawn. -/
theorem Ledger.conservation (ops : List Ledger.Op) :
    ((Ledger.sumBalances (Ledger.run .empty ops) : Int) +
        Ledger.escrowed (Ledger.run .empty ops) =
      Ledger.totalDeposited .empty ops - Ledger.totalWithdrawn .empty ops) ∧
    Ledger.totalWithdrawn .empty ops ≤ Ledger.totalDeposited .empty ops := by
  have h := Ledger.run_conserves ops .empty
  have h0 : Ledger.sumBalances .empty + Ledger.escrowed .empty = 0 := rfl
  constructor <;> omega

/-- The scenario of the specification runs on the model as the specification says. -/
theorem Ledger.scenario_runs :
    Ledger.run .empty (Ledger.scenario.take 2) =
        { balances := [("A", 60)],
          tasks := [{ id := 0, creator := "A", description := "fix bug", bounty := 40,
                      assignee := none, status := .Open }] } ∧
      Ledger.apply (Ledger.run .empty (Ledger.scenario.take 4)) (.withdraw "A" 61) =
        .error .InsufficientFunds ∧
      Ledger.run .empty Ledger.scenario =
        { balances := [("A", 0), ("B", 40)],
          tasks := [{ id := 0, creator := "A", description := "fix bug", bounty := 40,
                      assignee := some "B", status := .Completed }] } :=
  ⟨rfl, rfl, rfl⟩

/-- C2, as stated, fails: with the description "fix bug" and the bounty text "0", which
`parseEther` turns into 0 wei (a bounty that is not positive), `createTask` does issue
`contract.createTask("fix bug", 0)`; and with an empty description the handler reports
nothing at all, so no invalid-argument outcome exists. -/
theorem createTask_submits_zero_bounty :
    ((∃ wei, badEnv.parseEther readyState.newTaskBounty = .ok wei ∧ wei ≤ 0) ∧
        Event.call (.createTask "fix bug" 0) ∈ (createTask badEnv readyState).2) ∧
      (createTask badEnv { readyState with newTaskDescription := "" }).2 = [] :=
  ⟨⟨⟨0, rfl, le_refl 0⟩, List.mem_cons_self _ _⟩, rfl⟩

/-- C2, amended: for every input in which the description is empty or the bounty text is
empty, `createTask` returns silently: no call is issued, nothing is reported and the state
is unchanged.  A non-empty bounty text that `parseEther` accepts is submitted as parsed,
whatever its sign, once a contract and a description are present. -/
theorem createTask_skips_empty_fields (env : Env) (s : State) :
    (s.newTaskDescription = "" ∨ s.newTaskBounty = "" → createTask env s = (s, [])) ∧
      (∀ wei, s.contract.isSome = true → s.newTaskDescription ≠ "" → s.newTaskBounty ≠ "" →
        env.parseEther s.newTaskBounty = .ok wei →
        Event.call (.createTask s.newTaskDescription wei) ∈ (createTask env s).2) := by
  constructor
  · intro h
    rcases h with h | h <;> simp [createTask, truthy, h]
  · intro wei hc hd hb hp
    have hreq : Handler.request env s .createTask =
        some (.createTask s.newTaskDescription wei) := by
      simp [Handler.request, hp]
    exact (handler_calls .createTask env s _ hreq).2 (by simp [Handler.guard, hc, truthy, hd, hb])

/-- Witness for C2, amended: an empty bounty text, and the bounty text "0". -/
theorem createTask_skips_empty_fields_witness :
    createTask goodEnv { readyState with newTaskBounty := "" } =
        ({ readyState with newTaskBounty := "" }, []) ∧
      Event.call (.createTask "fix bug" 0) ∈ (createTask goodEnv readyState).2 :=
  ⟨(createTask_skips_empty_fields goodEnv { readyState with newTaskBounty := "" }).1
      (Or.inr rfl),
    (createTask_skips_empty_fields goodEnv readyState).2 0 rfl (by decide) (by decide) rfl⟩

/-! ## Re-rendering -/

/-- A render of a page whose `balance` cell is defined starts nothing. -/
theorem initUser_defined (env : Env) (s : State) (hb : s.balance ≠ none) :
    initUser env s = (s, []) := by
  unfold initUser
  cases hbal : s.balance with
  | none => exact absurd hbal hb
  | some b => simp

theorem renders_defined (env : Env) (n : Nat) : ∀ s : State, s.balance ≠ none →
    renders env n s = (s, []) := by
  induction n with
  | zero => intro s _; rfl
  | succ n ih =>
    intro s hb
    simp only [renders, initUser_defined env s hb]
    rw [ih s hb]
    rfl

/-- A render of a connected page whose `balance` cell is undefined starts `getBalance`,
reads `balance()` and stores the formatted reply. -/
theorem initUser_undefined (env : Env) (s : State) (b : Nat)
    (hw : s.ethWallet.isSome = true) (ha : truthyCell s.account = true)
    (hc : s.contract.isSome = true) (hb : s.balance = none) (hread : env.balance = .ok b) :
    (initUser env s).1.balance = some (env.formatEther b) ∧
      Event.run .getBalance ∈ (initUser env s).2 ∧ Event.call .balance ∈ (initUser env s).2 := by
  obtain ⟨c, hc1⟩ := Option.isSome_iff_exists.mp hc
  obtain ⟨w, hw1⟩ := Option.isSome_iff_exists.mp hw
  have hg : getBalance env s =
      ({ s with balance := some (env.formatEther b) }, [.run .getBalance, .call .balance]) := by
    unfold getBalance
    rw [hc1]
    simp only [hread]
  unfold initUser
  simp [hw1, ha, hb, hg]

/-- When the state a handler body leaves behind has a defined `balance` cell, the
re-renders add nothing to it. -/
theorem page_of_defined (h : Handler) (extra : Nat) (env : Env) (s : State)
    (hb : (h.run env s).1.balance ≠ none) : h.page extra env s = h.run env s := by
  unfold Handler.page
  split
  · rfl
  · rw [renders_defined env (extra + 1) _ hb]
    simp

theorem getBalance_changed (env : Env) (s : State) (h : (getBalance env s).1 ≠ s) :
    (getBalance env s).1.balance ≠ none := by
  unfold getBalance at h ⊢
  cases hc : s.contract with
  | none => rw [hc] at h; exact absurd rfl h
  | some c =>
    rw [hc] at h
    cases hr : env.balance with
    | error e => rw [hr] at h; exact absurd rfl h
    | ok b => simp

theorem deposit_changed (env : Env) (s : State) (h : (deposit env s).1 ≠ s) :
    (deposit env s).1.balance ≠ none := by
  unfold deposit at h ⊢
  split at h
  · split at h
    · exact absurd rfl h
    · split at h
      · exact absurd rfl h
      · exact absurd rfl h
      · rename_i hs
        simp only [*, ↓reduceIte]
        exact getBalance_changed env s h
  · exact absurd rfl h

theorem withdraw_changed (env : Env) (s : State) (h : (withdraw env s).1 ≠ s) :
    (withdraw env s).1.balance ≠ none := by
  unfold withdraw at h ⊢
  split at h
  · split at h
    · exact absurd rfl h
    · split at h
      · exact absurd rfl h
      · exact absurd rfl h
      · rename_i hs
        simp only [*, ↓reduceIte]
        exact getBalance_changed env s h
  · exact absurd rfl h

/-- The re-renders never add anything to a deposit or a withdrawal. -/
theorem page_deposit_withdraw (extra : Nat) (env : Env) (s : State) :
    Handler.page .deposit extra env s = deposit env s ∧
      Handler.page .withdraw extra env s = withdraw env s := by
  constructor
  · by_cases h : (deposit env s).1 = s
    · simp [Handler.page, Handler.run, h]
    · exact page_of_defined .deposit extra env s (deposit_changed env s h)
  · by_cases h : (withdraw env s).1 = s
    · simp [Handler.page, Handler.run, h]
    · exact page_of_defined .withdraw extra env s (withdraw_changed env s h)

/-- The bodies of createTask, assignTask and completeTask write no cell other than
`tasks` and the four form cells. -/
theorem task_body_cells (h : Handler)
    (ht : h = .createTask ∨ h = .assignTask ∨ h = .completeTask) (env : Env) (s : State) :
    (h.run env s).1.ethWallet = s.ethWallet ∧ (h.run env s).1.account = s.account ∧
      (h.run env s).1.contract = s.contract ∧ (h.run env s).1.balance = s.balance := by
  have hf := getTasks_frame env s
  have h1 : (getTasks env s).1.ethWallet = s.ethWallet := by
    have := congrArg State.ethWallet hf; exact this
  have h2 : (getTasks env s).1.account = s.account := by
    have := congrArg State.account hf; exact this
  have h3 : (getTasks env s).1.contract = s.contract := by
    have := congrArg State.contract hf; exact this
  have h4 : (getTasks env s).1.balance = s.balance := by
    have := congrArg State.balance hf; exact this
  rcases ht with ht | ht | ht <;> subst ht
  · simp only [Handler.run]
    unfold createTask
    split
    · split
      · exact ⟨rfl, rfl, rfl, rfl⟩
      · split <;> first | exact ⟨rfl, rfl, rfl, rfl⟩ | exact ⟨h1, h2, h3, h4⟩
    · exact ⟨rfl, rfl, rfl, rfl⟩
  · simp only [Handler.run]
    unfold assignTask
    split
    · split <;> first | exact ⟨rfl, rfl, rfl, rfl⟩ | exact ⟨h1, h2, h3, h4⟩
    · exact ⟨rfl, rfl, rfl, rfl⟩
  · simp only [Handler.run]
    unfold completeTask
    split
    · split <;> first | exact ⟨rfl, rfl, rfl, rfl⟩ | exact ⟨h1, h2, h3, h4⟩
    · exact ⟨rfl, rfl, rfl, rfl⟩

/-- On a connected page whose `balance` cell is undefined, a run of createTask,
assignTask or completeTask that changes a cell is followed by a render that starts
`getBalance`, reads `balance()` and stores the formatted reply. -/
theorem task_rerender_reads_balance (h : Handler)
    (ht : h = .createTask ∨ h = .assignTask ∨ h = .completeTask) (extra : Nat) (env : Env)
    (s : State) (b : Nat) (hchanged : (h.run env s).1 ≠ s)
    (hw : s.ethWallet.isSome = true) (ha : truthyCell s.account = true)
    (hc : s.contract.isSome = true) (hb : s.balance = none) (hread : env.balance = .ok b) :
    (h.page extra env s).1.balance = some (env.formatEther b) ∧
      Event.run .getBalance ∈ (h.page extra env s).2 ∧
      Event.call .balance ∈ (h.page extra env s).2 := by
  obtain ⟨k1, k2, k3, k4⟩ := task_body_cells h ht env s
  have hi := initUser_undefined env (h.run env s).1 b (by rw [k1]; exact hw)
    (by rw [k2]; exact ha) (by rw [k3]; exact hc) (by rw [k4]; exact hb) hread
  have hdef : (initUser env (h.run env s).1).1.balance ≠ none := by
    rw [hi.1]; simp
  unfold Handler.page
  rw [if_neg hchanged]
  simp only [renders]
  rw [renders_defined env extra _ hdef]
  refine ⟨hi.1, ?_, ?_⟩
  · exact List.mem_append_right _ (List.mem_append_left _ hi.2.1)
  · exact List.mem_append_right _ (List.mem_append_left _ hi.2.2)

/-! ## Frame of the handlers -/

/-- C9, as stated, fails: on a connected page whose `balance` cell is undefined, a
confirmed createTask clears the form, the page re-renders, and that render starts
`getBalance`, reads `balance()` and sets the `balance` cell to "0.0". -/
theorem createTask_rerender_sets_balance :
    freshState.balance = none ∧
      (Handler.page .createTask 0 goodEnv freshState).1.balance = some "0.0" ∧
      Event.run .getBalance ∈ (Handler.page .createTask 0 goodEnv freshState).2 ∧
      Event.call .balance ∈ (Handler.page .createTask 0 goodEnv freshState).2 :=
  ⟨rfl, task_rerender_reads_balance .createTask (Or.inl rfl) 0 goodEnv freshState 0
    (fun h => absurd (congrArg State.newTaskDescription h) (by decide)) rfl rfl rfl rfl rfl⟩

/-- C9, amended: for every starting state whose `balance` cell is defined and every
contract outcome, createTask, assignTask and completeTask, re-renders included, leave the
`balance` cell unchanged and neither start `getBalance` nor read `balance()`; for every
starting state, deposit and withdraw, re-renders included, leave the `tasks` list and the
four form cells unchanged. -/
theorem page_frame (extra : Nat) (env : Env) (s : State) :
    (s.balance ≠ none →
      ((Handler.page .createTask extra env s).1.balance = s.balance ∧
        (Handler.page .assignTask extra env s).1.balance = s.balance ∧
        (Handler.page .completeTask extra env s).1.balance = s.balance) ∧
      (∀ e, e ∈ (Handler.page .createTask extra env s).2 ∨
          e ∈ (Handler.page .assignTask extra env s).2 ∨
          e ∈ (Handler.page .completeTask extra env s).2 →
        e ≠ .run .getBalance ∧ e ≠ .call .balance)) ∧
      ((Handler.page .deposit extra env s).1.tasks = s.tasks ∧
        (Handler.page .deposit extra env s).1.newTaskDescription = s.newTaskDescription ∧
        (Handler.page .deposit extra env s).1.newTaskBounty = s.newTaskBounty ∧
        (Handler.page .deposit extra env s).1.taskIdToAssign = s.taskIdToAssign ∧
        (Handler.page .deposit extra env s).1.taskIdToComplete = s.taskIdToComplete) ∧
      ((Handler.page .withdraw extra env s).1.tasks = s.tasks ∧
        (Handler.page .withdraw extra env s).1.newTaskDescription = s.newTaskDescription ∧
        (Handler.page .withdraw extra env s).1.newTaskBounty = s.newTaskBounty ∧
        (Handler.page .withdraw extra env s).1.taskIdToAssign = s.taskIdToAssign ∧
        (Handler.page .withdraw extra env s).1.taskIdToComplete = s.taskIdToComplete) := by
  obtain ⟨⟨b1, b2, b3⟩, hev, hd, hw⟩ := handler_bodies_frame env s
  refine ⟨?_, ?_, ?_⟩
  · intro hb
    have p1 : Handler.page .createTask extra env s = createTask env s :=
      page_of_defined .createTask extra env s (by simp only [Handler.run]; rw [b1]; exact hb)
    have p2 : Handler.page .assignTask extra env s = assignTask env s :=
      page_of_defined .assignTask extra env s (by simp only [Handler.run]; rw [b2]; exact hb)
    have p3 : Handler.page .completeTask extra env s = completeTask env s :=
      page_of_defined .completeTask extra env s (by simp only [Handler.run]; rw [b3]; exact hb)
    rw [p1, p2, p3]
    exact ⟨⟨b1, b2, b3⟩, hev⟩
  · rw [(page_deposit_withdraw extra env s).1]; exact hd
  · rw [(page_deposit_withdraw extra env s).2]; exact hw

/-- Witness for C9, amended: a confirmed createTask on a page showing the balance "0.0". -/
theorem page_frame_witness :
    (Handler.page .createTask 0 goodEnv readyState).1.balance = some "0.0" ∧
      (Handler.page .deposit 0 goodEnv freshState).1.tasks = [] :=
  ⟨((page_frame 0 goodEnv readyState).1 (by decide)).1.1,
    (page_frame 0 goodEnv freshState).2.1.1⟩

end DeBounty
